import Mathlib

/-!
Shallow embedding of the jarbles operation registry and invocation protocol
(package `jarbles_framework`): the slug normalizer (`src/common.go`,
`slugify`), the line-oriented payload codec (`src/extension.go`, `Execute` /
`Payload`), the extension operation registry (`src/extension.go`,
`AddNavigation` / `AddAction` / `AddCommand` / `AddCron` / `route` /
`describe`), and the assistant action registry (`src/framework.go`,
`AddAction` / `describe`).

Go maps keyed by the stored `Id` (resp. `Name`) are embedded as lists with
insert-overwrite by key; lookup by key is order-independent because keys are
unique, so the nondeterministic Go map iteration in `route` / `ActionById`
is equivalent to `List.find?` on the stored key.  I/O concerns (the logger,
stdin/stdout wiring) and the final JSON/YAML marshaling of the manifest are
collaborator boundaries (spec sections 1 and 2) and are not part of the
embedded core; `describe` is embedded as the manifest document it marshals.
-/

/-! ## Slug normalization (src/common.go lines 98-106, `slugify`) -/

/-- One character of Go `strings.ToLower`, which applies the Unicode simple
case mapping rune by rune.  The embedding is exact on every codepoint whose
Go lowercase lies in the class `[a-zA-Z0-9-]` kept by the subsequent
regular-expression deletion: the ASCII letters (65-90 shifted by +32, which
is core `Char.toLower`) and the only two non-ASCII codepoints whose simple
lowercase mapping is ASCII, U+0130 LATIN CAPITAL LETTER I WITH DOT ABOVE
(304, lowercased to `i`) and U+212A KELVIN SIGN (8490, lowercased to `k`).
Every other codepoint is left unchanged where Go may map non-ASCII to
non-ASCII (for example U+00C9 to U+00E9); on those, both the Go image and
this image lie outside the kept class and are deleted by the filter, so
`slugify` agrees with the source either way.  No Unicode lowercase mapping
produces an ASCII digit or a hyphen, and none produces an ASCII uppercase
letter. -/
def lowerChar (c : Char) : Char :=
  if c.toNat = 304 then 'i'
  else if c.toNat = 8490 then 'k'
  else Char.toLower c

/-- One character of Go `strings.ReplaceAll(s, " ", "-")`. -/
def spaceToHyphen (c : Char) : Char := if c = ' ' then '-' else c

/-- Membership in the character class kept by the regular expression
`[^a-zA-Z0-9\-]+` replacement: lowercase letters (97-122), uppercase letters
(65-90), digits (48-57) and the hyphen (45). -/
def isSlugChar (c : Char) : Bool :=
  (97 ≤ c.toNat && c.toNat ≤ 122) || (65 ≤ c.toNat && c.toNat ≤ 90) ||
    (48 ≤ c.toNat && c.toNat ≤ 57) || (c.toNat == 45)

/-- `slugify` on the character list of a string: lowercase, then replace
spaces by hyphens, then strip everything outside `[a-zA-Z0-9-]`. -/
def slugifyChars (s : List Char) : List Char :=
  ((s.map lowerChar).map spaceToHyphen).filter isSlugChar

/-- Go `slugify` (src/common.go): `strings.ToLower`, then
`strings.ReplaceAll(s, " ", "-")`, then delete all characters matching
`[^a-zA-Z0-9\-]+`. -/
def slugify (s : String) : String := String.mk (slugifyChars s.data)

/-! ## Payload codec (src/extension.go lines 208-258, `Execute` / `Payload`)

`Execute` reads the request with a `bufio.Scanner` using the default
`ScanLines` split: tokens are the stream split at `'\n'`, a final empty
token produced by a trailing newline is not returned, and a `'\r'`
immediately before the end of a token is stripped.  The first token is the
operation id (`""` when the stream is empty), the second token (the
delimiter line) is discarded, and the remaining tokens are rejoined with
`"\n"` to rebuild the payload. -/

/-- `bufio.dropCR`: strip one `'\r'` from the end of a scanned line. -/
def dropCR (l : List Char) : List Char :=
  if l.getLast? = some '\r' then l.dropLast else l

/-- Split a character list at every `'\n'`, keeping all fields (including
empty ones); the separators are consumed. -/
def splitOnNl : List Char → List (List Char)
  | [] => [[]]
  | c :: cs =>
    if c = '\n' then [] :: splitOnNl cs
    else
      match splitOnNl cs with
      | [] => [[c]]
      | t :: ts => (c :: t) :: ts

/-- Rejoin fields with `'\n'`: Go `strings.Join(lines, "\n")`. -/
def joinNl : List (List Char) → List Char
  | [] => []
  | [x] => x
  | x :: xs => x ++ '\n' :: joinNl xs

/-- The token sequence produced by repeated `scanner.Scan()` with
`bufio.ScanLines`: no tokens on the empty stream; otherwise the `'\n'`
fields, without the final empty field created by a trailing newline, each
with a trailing `'\r'` stripped.  This is the token sequence of a scan that
succeeds; the scanner's maximum token size, which makes `Scan` fail on an
over-long line, is modelled by `scanOverflow` below and consumed by
`executeDecode` / `Extension.execute`. -/
def scanTokens (s : List Char) : List (List Char) :=
  if s = [] then []
  else
    let parts := splitOnNl s
    let parts := if s.getLast? = some '\n' then parts.dropLast else parts
    parts.map dropCR

/-- The operation id decoded by `Execute`: the first scanned token, or `""`
when the stream has none (`scanner.Text()` after a failed `Scan`). -/
def decodedOperationId (stream : List Char) : List Char :=
  (scanTokens stream).head?.getD []

/-- The payload decoded by `Execute`: every token after the first two,
rejoined with newlines. -/
def decodedPayload (stream : List Char) : List Char :=
  joinNl ((scanTokens stream).drop 2)

/-- `Payload` (src/extension.go lines 256-258): the test-stream writer
`action + "\n\n" + data`. -/
def payloadStream (action data : List Char) : List Char :=
  action ++ '\n' :: '\n' :: data

/-- `bufio.MaxScanTokenSize`, the default maximum token size of a
`bufio.Scanner`: 64 * 1024 bytes. -/
def MaxScanTokenSize : Nat := 65536

/-- The UTF-8 byte length of one line, as Go counts it: the stream is a
byte stream and the scanner's buffer limit is in bytes. -/
def lineBytes (l : List Char) : Nat := (l.map Char.utf8Size).sum

/-- Whether the scan of a stream fails with `bufio.ErrTooLong`.  `Scan`
errors exactly when some line reaches `MaxScanTokenSize` bytes: a
terminated line of `MaxScanTokenSize` bytes fills the maximal buffer before
its newline is seen, and a final unterminated line of that size fills it
before the next read can report end-of-stream (the reader behind `Payload`
is a `strings.Reader`, which reports end-of-stream only on the read after
the last byte); a line of `MaxScanTokenSize - 1` bytes always fits.  Every
line shorter than the limit scans, every line at or over it fails. -/
def scanOverflow (s : List Char) : Bool :=
  (splitOnNl s).any (fun fld => MaxScanTokenSize ≤ lineBytes fld)

/-- The decode stage of `Execute` (src/extension.go lines 223-242)
including its error path: when the scanner fails on an over-long line,
`scanner.Err()` is non-nil and `Execute` returns the wrapped scan error
(line 237-239) without routing; otherwise the decoded operation id and
payload are passed on. -/
def executeDecode (stream : List Char) : Except String (List Char × List Char) :=
  if scanOverflow stream then
    .error "error while scanning: bufio.Scanner: token too long"
  else
    .ok (decodedOperationId stream, decodedPayload stream)

/-! ## Extension data model (src/extension.go) -/

/-- `ExtensionResponse` (src/extension.go lines 14-21). -/
structure ExtensionResponse where
  HtmlTitle : String
  HtmlHead : String
  HtmlBody : String
  Subject : String
  TextBody : String
  NoLayout : Bool

/-- `ActionFunction` (src/common.go line 13): a handler from a payload to a
string result or an error.  Go's `(string, error)` pair with exactly one
side populated is `Except`. -/
def ActionFunction : Type := String → Except String String

/-- Modelled from the spec: `CommandFunction` is declared in repository code
that is not under `src/` (only its uses are, in `AddCommand` and `route`).
Spec section 3 makes a handler "a function from an untyped payload to either
a structured result or an error", and the call site
`return "", command.Function(payload)` shows a command handler produces only
an optional error. -/
def CommandFunction : Type := String → Option String

/-- `ExtensionFunction` (src/extension.go line 23). -/
def ExtensionFunction : Type := String → Except String ExtensionResponse

/-- A lowercase hexadecimal digit, as Go's JSON encoder emits them. -/
def hexDigit (n : Nat) : Char :=
  if n < 10 then Char.ofNat (48 + n) else Char.ofNat (87 + n)

/-- One escaped character of Go `json.Marshal`'s string encoder with its
default HTML escaping: quote and backslash are backslash-escaped; newline,
carriage return and tab use their short forms; the remaining control
characters below U+0020 are escaped as backslash-u-00-hex-hex with
lowercase hex; the HTML-relevant ampersand, less-than and greater-than
signs and the line separators U+2028 and U+2029 are escaped as
backslash-u-and-four-hex-digits; everything else passes through.  Go
additionally replaces invalid UTF-8 bytes with U+FFFD, a case that cannot
arise here because every `Char` is a valid scalar value. -/
def jsonEscapeChar (c : Char) : List Char :=
  if c = '"' then ['\\', '"']
  else if c = '\\' then ['\\', '\\']
  else if c = '\n' then ['\\', 'n']
  else if c = '\r' then ['\\', 'r']
  else if c = '\t' then ['\\', 't']
  else if c.toNat < 32 then
    ['\\', 'u', '0', '0', hexDigit (c.toNat / 16), hexDigit (c.toNat % 16)]
  else if c = '&' then ['\\', 'u', '0', '0', '2', '6']
  else if c = '<' then ['\\', 'u', '0', '0', '3', 'c']
  else if c = '>' then ['\\', 'u', '0', '0', '3', 'e']
  else if c.toNat = 8232 then ['\\', 'u', '2', '0', '2', '8']
  else if c.toNat = 8233 then ['\\', 'u', '2', '0', '2', '9']
  else [c]

/-- A JSON string literal. -/
def jsonString (s : String) : String :=
  "\"" ++ String.mk ((s.data.map jsonEscapeChar).flatten) ++ "\""

/-- Go `json.Marshal` of an `ExtensionResponse`: every field is tagged
`omitempty`, so zero-valued fields are omitted.  Marshaling this struct
cannot fail in Go, so the embedding is total.  No claim inspects this
output; it only fixes the handler wrapper below. -/
def marshalExtensionResponse (r : ExtensionResponse) : String :=
  let fields : List (Option String) :=
    [ if r.HtmlTitle = "" then none else some ("\"html_title\":" ++ jsonString r.HtmlTitle),
      if r.HtmlHead = "" then none else some ("\"html_head\":" ++ jsonString r.HtmlHead),
      if r.HtmlBody = "" then none else some ("\"html_body\":" ++ jsonString r.HtmlBody),
      if r.Subject = "" then none else some ("\"subject\":" ++ jsonString r.Subject),
      if r.TextBody = "" then none else some ("\"text_body\":" ++ jsonString r.TextBody),
      if r.NoLayout = false then none else some "\"no_layout\":true" ]
  "\x7b" ++ String.intercalate "," (fields.filterMap id) ++ "\x7d"

/-- The closure built inside `AddNavigation` / `AddAction` / `AddCron`: run
the `ExtensionFunction`, propagate its error, otherwise marshal the
response. -/
def wrapExtensionFunction (fn : ExtensionFunction) : ActionFunction :=
  fun payload =>
    match fn payload with
    | .error e => .error e
    | .ok response => .ok (marshalExtensionResponse response)

/-- `ExtensionAction` (src/extension.go lines 25-35).  The `Extension`
back-pointer field is omitted: it is a cyclic reference to the registry the
action lives in and no embedded operation reads it. -/
structure ExtensionAction where
  Id : String
  Index : Int
  Name : String
  Description : String
  Nav : Bool
  Function : ActionFunction
  UrlPath : String
  Cron : String

/-- `ExtensionCommand` (src/extension.go lines 37-41), without the cyclic
`Extension` back-pointer. -/
structure ExtensionCommand where
  Id : String
  Function : CommandFunction

/-- `Extension` (src/extension.go lines 43-49).  The `actions` and
`commands` Go maps are embedded as lists with unique stored ids. -/
structure Extension where
  Id : String
  Name : String
  Description : String
  actions : List ExtensionAction
  commands : List ExtensionCommand

/-- Go map insert `e.actions[v.Id] = v`: drop any entry already stored
under the key, then add the new one. -/
def insertAction (l : List ExtensionAction) (v : ExtensionAction) : List ExtensionAction :=
  l.filter (fun a => a.Id != v.Id) ++ [v]

/-- Go map insert `e.commands[v.Id] = v`. -/
def insertCommand (l : List ExtensionCommand) (v : ExtensionCommand) : List ExtensionCommand :=
  l.filter (fun c => c.Id != v.Id) ++ [v]

/-- `NewExtension` (src/extension.go lines 51-59). -/
def Extension.new (name description : String) : Extension :=
  { Id := slugify name
    Name := name
    Description := description
    actions := []
    commands := [] }

/-- `addAction` (src/extension.go lines 177-182). -/
def Extension.addActionEntry (e : Extension) (v : ExtensionAction) : Extension :=
  { e with actions := insertAction e.actions v }

/-- `addCommand` (src/extension.go lines 184-189). -/
def Extension.addCommandEntry (e : Extension) (v : ExtensionCommand) : Extension :=
  { e with commands := insertCommand e.commands v }

/-- `AddNavigation` (src/extension.go lines 75-96).  The caller-supplied id
is stored verbatim (it is not slugified), `Index` is the current size of the
actions map, and `Nav` is set. -/
def Extension.AddNavigation (e : Extension) (id name description : String)
    (fn : ExtensionFunction) : Extension :=
  e.addActionEntry
    { Id := id
      Index := (e.actions.length : Int)
      Name := name
      Description := description
      Nav := true
      Function := wrapExtensionFunction fn
      UrlPath := "/extension/action/" ++ e.Id ++ "/" ++ id
      Cron := "" }

/-- `AddAction` (src/extension.go lines 98-119): the stored id is
`slugify id`, `Index` is the current size of the actions map. -/
def Extension.AddAction (e : Extension) (id : String) (fn : ExtensionFunction) : Extension :=
  e.addActionEntry
    { Id := slugify id
      Index := (e.actions.length : Int)
      Name := id
      Description := id
      Nav := false
      Function := wrapExtensionFunction fn
      UrlPath := "/extension/action/" ++ e.Id ++ "/" ++ id
      Cron := "" }

/-- `AddCommand` (src/extension.go lines 121-133). -/
def Extension.AddCommand (e : Extension) (id : String) (fn : CommandFunction) : Extension :=
  e.addCommandEntry
    { Id := slugify id
      Function := fn }

/-- `AddCron` (src/extension.go lines 135-157): stored like an action but
with the sentinel `Index = -1` and the cron expression recorded. -/
def Extension.AddCron (e : Extension) (id cron : String) (fn : ExtensionFunction) : Extension :=
  e.addActionEntry
    { Id := slugify id
      Index := -1
      Name := id
      Description := id
      Nav := false
      Function := wrapExtensionFunction fn
      UrlPath := "/extension/action/" ++ e.Id ++ "/" ++ id
      Cron := cron }

/-- The lookup performed by the `for _, action := range e.actions` loops in
`route` and `ActionById`: the entry stored under the id, if any. -/
def Extension.findAction (e : Extension) (id : String) : Option ExtensionAction :=
  e.actions.find? (fun a => a.Id == id)

/-- The lookup performed by the `for _, command := range e.commands` loop in
`route`. -/
def Extension.findCommand (e : Extension) (id : String) : Option ExtensionCommand :=
  e.commands.find? (fun c => c.Id == id)

/-! ## Manifest builder (src/extension.go lines 284-337, `describe`) -/

/-- `JarblesExtensionAction` (src/extension.go lines 287-295): one entry of
the manifest's `actions` map. -/
structure JarblesExtensionAction where
  id : String
  index : Int
  name : String
  description : String
  nav : Bool
  cron : String
  cronSummary : String
  deriving DecidableEq

/-- `JarblesExtensionCommand` (src/extension.go lines 297-299). -/
structure JarblesExtensionCommand where
  id : String
  deriving DecidableEq

/-- `JarblesExtension` (src/extension.go lines 301-307): the manifest
document marshaled by `describe`. -/
structure JarblesExtension where
  id : String
  name : String
  description : String
  actions : List JarblesExtensionAction
  commands : List JarblesExtensionCommand
  deriving DecidableEq

/-- The per-action projection inside `describe`'s loop.  The struct literal
in the Go source assigns every field except `CronSummary`, which therefore
keeps its zero value `""`. -/
def toJarblesAction (op : ExtensionAction) : JarblesExtensionAction :=
  { id := op.Id
    index := op.Index
    name := op.Name
    description := op.Description
    nav := op.Nav
    cron := op.Cron
    cronSummary := "" }

/-- `describe` (src/extension.go lines 284-337), embedded as the manifest
document it builds; the final `json.Marshal` is the collaborator boundary. -/
def Extension.describe (e : Extension) : JarblesExtension :=
  { id := e.Id
    name := e.Name
    description := e.Description
    actions := e.actions.map toJarblesAction
    commands := e.commands.map (fun op => { id := op.Id }) }

/-- Lookup in the manifest's `actions` map. -/
def JarblesExtension.findAction (m : JarblesExtension) (id : String) :
    Option JarblesExtensionAction :=
  m.actions.find? (fun a => a.id == id)

/-! ## Dispatcher (src/extension.go lines 260-281, `route`; lines 208-253,
`Execute`) -/

/-- The observable outcome of one `route` call, one constructor per exit
path of the Go `switch`: the reserved `describe` branch, a matched action
handler's result, a matched command handler's result, or the
unknown-operation error.  A handler is invoked exactly when the outcome is
`actionResult` or `commandResult`. -/
inductive RouteResult where
  | describeResult (manifest : JarblesExtension)
  | actionResult (output : Except String String)
  | commandResult (errorText : Option String)
  | unknownOperation (message : String)

/-- `route` (src/extension.go lines 260-281): the reserved `"describe"` case
first, then the actions map, then the commands map, then
`fmt.Errorf("unknown operation: %s", operationId)`. -/
def Extension.route (e : Extension) (operationId payload : String) : RouteResult :=
  if operationId = "describe" then
    .describeResult e.describe
  else
    match e.findAction operationId with
    | some action => .actionResult (action.Function payload)
    | none =>
      match e.findCommand operationId with
      | some command => .commandResult (command.Function payload)
      | none => .unknownOperation ("unknown operation: " ++ operationId)

/-- The request pipeline of `Execute` (src/extension.go lines 208-253) after
the logger setup (an I/O collaborator), on a stream whose scan succeeds:
decode the operation id and payload from the stream, then route.  The scan
error path is layered on in `Extension.execute`. -/
def Extension.executeCore (e : Extension) (stream : String) : RouteResult :=
  e.route (String.mk (decodedOperationId stream.data))
    (String.mk (decodedPayload stream.data))

/-- `Execute` (src/extension.go lines 208-253) in full: a scanner failure on
an over-long line aborts with the wrapped scan error before routing
(lines 237-239); otherwise the decoded request is routed. -/
def Extension.execute (e : Extension) (stream : String) : Except String RouteResult :=
  if scanOverflow stream.data then
    .error "error while scanning: bufio.Scanner: token too long"
  else
    .ok (e.executeCore stream)

/-! ## Assistant registry (src/framework.go) -/

/-- `ActionArguments` (src/framework.go lines 40-45).  The Go field `Type`
is renamed `ArgType`: `Type` is a reserved word in Lean. -/
structure ActionArguments where
  Name : String
  ArgType : String
  Description : String
  Enum : List String

/-- `Action` (src/framework.go lines 47-53). -/
structure AssistantAction where
  Name : String
  Description : String
  Arguments : List ActionArguments
  RequiredArguments : List String
  Function : ActionFunction

/-- `assistantDescriptionFunctionProperty` (src/framework.go lines 67-72). -/
structure AssistantFunctionProperty where
  name : String
  propType : String
  description : String
  enum : List String

/-- `assistantDescriptionFunction` (src/framework.go lines 60-65): one
entry of the manifest's `functions` list. -/
structure AssistantFunction where
  name : String
  description : String
  properties : List AssistantFunctionProperty
  required : List String

/-- `assistantDescriptionMessage` (src/framework.go lines 55-58). -/
structure AssistantMessage where
  role : String
  content : String

/-- `quicklink` (src/framework.go lines 74-77). -/
structure Quicklink where
  title : String
  content : String

/-- `assistantDescription` (src/framework.go lines 79-88): the document
marshaled by the assistant's `describe`. -/
structure AssistantDescription where
  id : String
  name : String
  description : String
  placeholder : String
  modelName : String
  messages : List AssistantMessage
  functions : List AssistantFunction
  quicklinks : List Quicklink

/-- `Assistant` (src/framework.go lines 90-94).  `avatarImage` is the
byte slice holding the embedded `avatar.jpeg` asset (or a caller-supplied
replacement via `Image`), carried as a list of bytes. -/
structure Assistant where
  description : AssistantDescription
  avatarImage : List Nat
  actions : List AssistantAction

/-- Go map insert `a.actions[v.Name] = v` (the assistant registry is keyed
by `Name`). -/
def insertAssistantAction (l : List AssistantAction) (v : AssistantAction) :
    List AssistantAction :=
  l.filter (fun x => x.Name != v.Name) ++ [v]

/-- The function descriptor appended to `a.description.Functions` by
`AddAction` (src/framework.go lines 167-182): the properties list is built
from the action's arguments. -/
def toAssistantFunction (v : AssistantAction) : AssistantFunction :=
  { name := v.Name
    description := v.Description
    properties := v.Arguments.map (fun argument =>
      { name := argument.Name
        propType := argument.ArgType
        description := argument.Description
        enum := argument.Enum })
    required := v.RequiredArguments }

/-- `AddAction` (src/framework.go lines 161-183): overwrite the actions map
under `v.Name`, and unconditionally append one descriptor to the
description's `Functions` list. -/
def Assistant.AddAction (a : Assistant) (v : AssistantAction) : Assistant :=
  { a with
    description :=
      { a.description with functions := a.description.functions ++ [toAssistantFunction v] }
    actions := insertAssistantAction a.actions v }

/-- The lookup performed by the `for _, action := range a.actions` loop in
the assistant's `route` (src/framework.go lines 381-397). -/
def Assistant.findAction (a : Assistant) (name : String) : Option AssistantAction :=
  a.actions.find? (fun x => x.Name == name)

/-- The assistant's `describe` (src/framework.go lines 399-406), embedded as
the document it marshals; the `yaml.Marshal` call is the collaborator
boundary. -/
def Assistant.describe (a : Assistant) : AssistantDescription :=
  a.description

/-- The observable outcome of one assistant `route` call (src/framework.go
lines 381-397), one constructor per exit path of the Go `switch`: the
reserved `describe` branch, the reserved `image` branch, a matched action
handler's result, or the unknown-action error.  A handler is invoked
exactly when the outcome is `actionResult`.  `imageResult` carries the
avatar bytes whose base64 encoding `a.image()` returns; the base64 codec is
a standard-library function no claim inspects, so it is not embedded. -/
inductive AssistantRouteResult where
  | describeResult (manifest : AssistantDescription)
  | imageResult (avatar : List Nat)
  | actionResult (output : Except String String)
  | unknownAction (message : String)

/-- The assistant's `route` (src/framework.go lines 381-397): the reserved
`"describe"` case, then the reserved `"image"` case returning the encoded
avatar, then the actions map scanned by `Name`, then
`fmt.Errorf("unknown action: %s", actionName)`. -/
def Assistant.route (a : Assistant) (actionName payload : String) : AssistantRouteResult :=
  if actionName = "describe" then
    .describeResult a.describe
  else if actionName = "image" then
    .imageResult a.avatarImage
  else
    match a.findAction actionName with
    | some action => .actionResult (action.Function payload)
    | none => .unknownAction ("unknown action: " ++ actionName)

/-! ## Concrete fixtures used by witnesses and counterexamples -/

/-- A handler that always succeeds with a fixed response. -/
def sampleExtensionFn : ExtensionFunction := fun _ =>
  .ok { HtmlTitle := "t", HtmlHead := "", HtmlBody := "b", Subject := "",
        TextBody := "", NoLayout := false }

/-- A handler that always fails, distinguishable from `sampleExtensionFn`. -/
def secondExtensionFn : ExtensionFunction := fun _ => .error "second"

/-- A command handler that always succeeds. -/
def sampleCommandFn : CommandFunction := fun _ => none

/-- A registry holding exactly one cron operation. -/
def cronOnlyExt : Extension :=
  (Extension.new "test" "desc").AddCron "tick" "0 * * * *" sampleExtensionFn

/-- A registry where a cron operation is registered before the first plain
action. -/
def cronFirstExt : Extension :=
  ((Extension.new "test" "desc").AddCron "tick" "0 * * * *" sampleExtensionFn).AddAction
    "greet" sampleExtensionFn

/-- A registry holding one navigation operation whose caller-supplied id is
not slug-normal. -/
def navExt : Extension :=
  (Extension.new "test" "desc").AddNavigation "My Nav!" "My Nav" "a nav page"
    sampleExtensionFn

/-- A registry holding one action and one command. -/
def greetExt : Extension :=
  ((Extension.new "test" "desc").AddAction "greet" sampleExtensionFn).AddCommand
    "ping" sampleCommandFn

/-- A registry where the same action id is registered twice. -/
def dupExt : Extension :=
  ((Extension.new "test" "desc").AddAction "dup" sampleExtensionFn).AddAction
    "dup" secondExtensionFn

/-- A first assistant action named `read-file`. -/
def readFileAction : AssistantAction :=
  { Name := "read-file", Description := "first", Arguments := [],
    RequiredArguments := [], Function := fun _ => .ok "one" }

/-- A second, different assistant action with the same name `read-file`. -/
def readFileActionSecond : AssistantAction :=
  { Name := "read-file", Description := "second", Arguments := [],
    RequiredArguments := [], Function := fun _ => .ok "two" }

/-- An assistant with an empty registry. -/
def sampleAssistant : Assistant :=
  { description :=
      { id := "helper", name := "helper", description := "d", placeholder := "p",
        modelName := "m", messages := [], functions := [], quicklinks := [] }
    avatarImage := [255, 216]
    actions := [] }

/-! ## Helper lemmas: slugify -/

/-- The character class of `slugify`'s output: lowercase ASCII letters,
digits, and the hyphen. -/
def slugOutputChar (c : Char) : Prop :=
  (97 ≤ c.toNat ∧ c.toNat ≤ 122) ∨ (48 ≤ c.toNat ∧ c.toNat ≤ 57) ∨ c.toNat = 45

theorem char_toNat_ofNat (n : Nat) (h : n < 55296) : (Char.ofNat n).toNat = n := by
  rw [Char.ofNat, dif_pos (Or.inl h : n.isValidChar)]
  rfl

theorem toNat_space_of_eq {x : Char} (h : x = ' ') : x.toNat = 32 := by
  subst h; rfl

theorem lowerChar_toNat_of_upper {x : Char} (h : 65 ≤ x.toNat ∧ x.toNat ≤ 90) :
    (lowerChar x).toNat = x.toNat + 32 := by
  rw [lowerChar, if_neg (by omega), if_neg (by omega), Char.toLower, if_pos ⟨h.1, h.2⟩]
  exact char_toNat_ofNat _ (by omega)

theorem lowerChar_eq_self {x : Char} (h304 : x.toNat ≠ 304) (h8490 : x.toNat ≠ 8490)
    (h : ¬(65 ≤ x.toNat ∧ x.toNat ≤ 90)) :
    lowerChar x = x := by
  rw [lowerChar, if_neg h304, if_neg h8490, Char.toLower, if_neg]
  exact fun hc => h ⟨hc.1, hc.2⟩

theorem spaceToHyphen_eq_self {x : Char} (h : x.toNat ≠ 32) : spaceToHyphen x = x := by
  rw [spaceToHyphen, if_neg]
  exact fun hc => h (toNat_space_of_eq hc)

theorem slugOutputChar_of_isSlugChar {x : Char}
    (h : isSlugChar (spaceToHyphen (lowerChar x)) = true) :
    slugOutputChar (spaceToHyphen (lowerChar x)) := by
  by_cases h304 : x.toNat = 304
  · rw [show lowerChar x = 'i' from by rw [lowerChar, if_pos h304]]
    exact Or.inl ⟨by decide, by decide⟩
  · by_cases h8490 : x.toNat = 8490
    · rw [show lowerChar x = 'k' from by rw [lowerChar, if_neg h304, if_pos h8490]]
      exact Or.inl ⟨by decide, by decide⟩
    · by_cases hu : 65 ≤ x.toNat ∧ x.toNat ≤ 90
      · have ht : (lowerChar x).toNat = x.toNat + 32 := lowerChar_toNat_of_upper hu
        have hs : spaceToHyphen (lowerChar x) = lowerChar x :=
          spaceToHyphen_eq_self (by omega)
        rw [hs]
        exact Or.inl (by omega)
      · rw [lowerChar_eq_self h304 h8490 hu] at h ⊢
        by_cases hsp : x = ' '
        · rw [spaceToHyphen, if_pos hsp]
          exact Or.inr (Or.inr (by decide))
        · rw [spaceToHyphen, if_neg hsp] at h ⊢
          simp only [isSlugChar, Bool.or_eq_true, Bool.and_eq_true, decide_eq_true_eq,
            beq_iff_eq] at h
          rcases h with ((h | h) | h) | h
          · exact Or.inl h
          · exact absurd h hu
          · exact Or.inr (Or.inl h)
          · exact Or.inr (Or.inr h)

theorem slug_fixed {c : Char} (h : slugOutputChar c) :
    lowerChar c = c ∧ spaceToHyphen c = c ∧ isSlugChar c = true := by
  refine ⟨lowerChar_eq_self (by rcases h with h | h | h <;> omega)
      (by rcases h with h | h | h <;> omega) (by rcases h with h | h | h <;> omega),
    spaceToHyphen_eq_self (by rcases h with h | h | h <;> omega), ?_⟩
  simp only [isSlugChar, Bool.or_eq_true, Bool.and_eq_true, decide_eq_true_eq, beq_iff_eq]
  rcases h with h | h | h
  · exact Or.inl (Or.inl (Or.inl h))
  · exact Or.inl (Or.inr h)
  · exact Or.inr h

theorem mem_slugifyChars {s : List Char} {c : Char} (hc : c ∈ slugifyChars s) :
    slugOutputChar c := by
  rw [slugifyChars] at hc
  have hslug : isSlugChar c = true := List.of_mem_filter hc
  have hmem := List.mem_of_mem_filter hc
  rw [List.map_map] at hmem
  rcases List.mem_map.mp hmem with ⟨x, _, hx⟩
  subst hx
  exact slugOutputChar_of_isSlugChar hslug

theorem map_eq_self {α : Type} {l : List α} {f : α → α} (h : ∀ a ∈ l, f a = a) :
    l.map f = l := by
  induction l with
  | nil => rfl
  | cons a l ih =>
    rw [List.map_cons, h a (List.mem_cons_self a l),
      ih (fun b hb => h b (List.mem_cons_of_mem a hb))]

theorem slugifyChars_idem (s : List Char) : slugifyChars (slugifyChars s) = slugifyChars s := by
  conv_lhs => rw [slugifyChars]
  rw [map_eq_self (fun c hc => (slug_fixed (mem_slugifyChars hc)).1),
    map_eq_self (fun c hc => (slug_fixed (mem_slugifyChars hc)).2.1),
    List.filter_eq_self.mpr (fun c hc => (slug_fixed (mem_slugifyChars hc)).2.2)]

theorem slugify_idem (s : String) : slugify (slugify s) = slugify s := by
  rw [slugify, slugify, slugifyChars_idem]

/-! ## Helper lemmas: payload codec -/

theorem splitOnNl_ne_nil (s : List Char) : splitOnNl s ≠ [] := by
  cases s with
  | nil => simp [splitOnNl]
  | cons c cs =>
    rw [splitOnNl]
    split
    · simp
    · cases h : splitOnNl cs <;> simp

theorem splitOnNl_append {xs : List Char} (ys : List Char) (h : '\n' ∉ xs) :
    splitOnNl (xs ++ '\n' :: ys) = xs :: splitOnNl ys := by
  induction xs with
  | nil => simp [splitOnNl]
  | cons c cs ih =>
    have hc : ¬(c = '\n') := fun hh => h (hh ▸ List.mem_cons_self c cs)
    rw [List.cons_append, splitOnNl, if_neg hc,
      ih (fun hm => h (List.mem_cons_of_mem c hm))]

theorem joinNl_cons_cons (x y : List Char) (ys : List (List Char)) :
    joinNl (x :: y :: ys) = x ++ '\n' :: joinNl (y :: ys) := rfl

theorem joinNl_splitOnNl (s : List Char) : joinNl (splitOnNl s) = s := by
  induction s with
  | nil => rfl
  | cons c cs ih =>
    rw [splitOnNl]
    by_cases hc : c = '\n'
    · rw [if_pos hc]
      cases h : splitOnNl cs with
      | nil => exact absurd h (splitOnNl_ne_nil cs)
      | cons t ts =>
        rw [h] at ih
        rw [joinNl_cons_cons, List.nil_append, hc, ih]
    · rw [if_neg hc]
      cases h : splitOnNl cs with
      | nil => exact absurd h (splitOnNl_ne_nil cs)
      | cons t ts =>
        rw [h] at ih
        show joinNl ((c :: t) :: ts) = c :: cs
        cases ts with
        | nil => exact congrArg (List.cons c) ih
        | cons u us =>
          rw [joinNl_cons_cons, List.cons_append]
          rw [joinNl_cons_cons] at ih
          exact congrArg (List.cons c) ih

theorem scanTokens_of_ne_nil {s : List Char} (hne : s ≠ []) :
    scanTokens s =
      (if s.getLast? = some '\n' then (splitOnNl s).dropLast else splitOnNl s).map dropCR := by
  rw [scanTokens, if_neg hne]

theorem dropCR_eq_self {l : List Char} (h : l.getLast? ≠ some '\r') : dropCR l = l := by
  rw [dropCR, if_neg h]

/-- The successful-scan half of the decode round trip: on a stream written
as `op + "\n\n" + P`, the splitting rule (skip line 1 and line 2, rejoin
the remaining scanned lines with `"\n"`) returns exactly `P` provided the
operation id contains no newline, `P` does not end with a newline, and no
line of `P` ends with a carriage return. -/
theorem decodedPayload_payloadStream (op P : List Char) (hop : '\n' ∉ op)
    (hlast : P.getLast? ≠ some '\n')
    (hcr : ∀ fld ∈ splitOnNl P, fld.getLast? ≠ some '\r') :
    decodedPayload (payloadStream op P) = P := by
  have hne : payloadStream op P ≠ [] := by
    rw [payloadStream]
    simp
  rw [decodedPayload, scanTokens_of_ne_nil hne]
  cases hP : P with
  | nil =>
    subst hP
    have hsplit : splitOnNl (payloadStream op []) = [op, [], []] := by
      rw [payloadStream, splitOnNl_append _ hop]
      rfl
    have hlastnl : (payloadStream op []).getLast? = some '\n' := by
      rw [payloadStream]
      show (op ++ ['\n', '\n']).getLast? = some '\n'
      simp [List.getLast?_append]
    rw [hsplit, if_pos hlastnl]
    rfl
  | cons p ps =>
    rw [← hP]
    have hPne : P ≠ [] := by rw [hP]; simp
    have hsplit : splitOnNl (payloadStream op P) = op :: [] :: splitOnNl P := by
      rw [payloadStream, splitOnNl_append _ hop, splitOnNl, if_pos rfl]
    have hlaststream : (payloadStream op P).getLast? = P.getLast? := by
      rw [payloadStream]
      show (op ++ (['\n', '\n'] ++ P)).getLast? = P.getLast?
      rw [List.getLast?_append, List.getLast?_append]
      cases hg : P.getLast? with
      | none => exact absurd (List.getLast?_eq_none_iff.mp hg) hPne
      | some x => rfl
    rw [if_neg (by rw [hlaststream]; exact hlast), hsplit]
    show joinNl ((dropCR op :: dropCR [] :: (splitOnNl P).map dropCR).drop 2) = P
    rw [List.drop_succ_cons, List.drop_succ_cons, List.drop_zero,
      map_eq_self (fun fld hfld => dropCR_eq_self (hcr fld hfld)), joinNl_splitOnNl]

/-! ## Helper lemmas: registry insertion and lookup -/

theorem find?_insertAction (l : List ExtensionAction) (v : ExtensionAction) :
    (insertAction l v).find? (fun a => a.Id == v.Id) = some v := by
  rw [insertAction, List.find?_append]
  have hnone : (l.filter (fun a => a.Id != v.Id)).find? (fun a => a.Id == v.Id) = none := by
    rw [List.find?_eq_none]
    intro a ha
    have := List.of_mem_filter ha
    simpa using this
  rw [hnone]
  simp

theorem find?_insertCommand (l : List ExtensionCommand) (v : ExtensionCommand) :
    (insertCommand l v).find? (fun c => c.Id == v.Id) = some v := by
  rw [insertCommand, List.find?_append]
  have hnone : (l.filter (fun c => c.Id != v.Id)).find? (fun c => c.Id == v.Id) = none := by
    rw [List.find?_eq_none]
    intro c hc
    have := List.of_mem_filter hc
    simpa using this
  rw [hnone]
  simp

theorem find?_insertAction_map (l : List ExtensionAction) (v : ExtensionAction) :
    ((insertAction l v).map toJarblesAction).find? (fun a => a.id == v.Id) =
      some (toJarblesAction v) := by
  rw [insertAction, List.map_append, List.find?_append]
  have hnone : ((l.filter (fun a => a.Id != v.Id)).map toJarblesAction).find?
      (fun a => a.id == v.Id) = none := by
    rw [List.find?_eq_none]
    intro ja hja
    rcases List.mem_map.mp hja with ⟨a, ha, rfl⟩
    have := List.of_mem_filter ha
    simpa [toJarblesAction] using this
  rw [hnone]
  simp [toJarblesAction]

theorem find?_insertAssistantAction (l : List AssistantAction) (v : AssistantAction) :
    (insertAssistantAction l v).find? (fun x => x.Name == v.Name) = some v := by
  rw [insertAssistantAction, List.find?_append]
  have hnone : (l.filter (fun x => x.Name != v.Name)).find? (fun x => x.Name == v.Name)
      = none := by
    rw [List.find?_eq_none]
    intro x hx
    have := List.of_mem_filter hx
    simpa using this
  rw [hnone]
  simp

theorem countP_insertAssistantAction (l : List AssistantAction) (v : AssistantAction) :
    (insertAssistantAction l v).countP (fun x => x.Name == v.Name) = 1 := by
  rw [insertAssistantAction, List.countP_append]
  have hzero : (l.filter (fun x => x.Name != v.Name)).countP (fun x => x.Name == v.Name)
      = 0 := by
    rw [List.countP_eq_zero]
    intro x hx
    have := List.of_mem_filter hx
    simpa using this
  rw [hzero]
  simp [List.countP_cons]

theorem route_action_found {e : Extension} {operationId : String} {a : ExtensionAction}
    (hne : operationId ≠ "describe") (h : e.findAction operationId = some a)
    (payload : String) :
    e.route operationId payload = .actionResult (a.Function payload) := by
  simp only [Extension.route, if_neg hne, h]

theorem findAction_AddAction (e : Extension) (id : String) (f : ExtensionFunction) :
    (e.AddAction id f).findAction (slugify id) =
      some { Id := slugify id, Index := (e.actions.length : Int), Name := id,
             Description := id, Nav := false, Function := wrapExtensionFunction f,
             UrlPath := "/extension/action/" ++ e.Id ++ "/" ++ id, Cron := "" } :=
  find?_insertAction e.actions
    { Id := slugify id, Index := (e.actions.length : Int), Name := id,
      Description := id, Nav := false, Function := wrapExtensionFunction f,
      UrlPath := "/extension/action/" ++ e.Id ++ "/" ++ id, Cron := "" }

theorem findAction_AddNavigation (e : Extension) (id name description : String)
    (f : ExtensionFunction) :
    (e.AddNavigation id name description f).findAction id =
      some { Id := id, Index := (e.actions.length : Int), Name := name,
             Description := description, Nav := true,
             Function := wrapExtensionFunction f,
             UrlPath := "/extension/action/" ++ e.Id ++ "/" ++ id, Cron := "" } :=
  find?_insertAction e.actions
    { Id := id, Index := (e.actions.length : Int), Name := name,
      Description := description, Nav := true, Function := wrapExtensionFunction f,
      UrlPath := "/extension/action/" ++ e.Id ++ "/" ++ id, Cron := "" }

theorem findAction_AddCron (e : Extension) (id cron : String) (f : ExtensionFunction) :
    (e.AddCron id cron f).findAction (slugify id) =
      some { Id := slugify id, Index := -1, Name := id, Description := id, Nav := false,
             Function := wrapExtensionFunction f,
             UrlPath := "/extension/action/" ++ e.Id ++ "/" ++ id, Cron := cron } :=
  find?_insertAction e.actions
    { Id := slugify id, Index := -1, Name := id, Description := id, Nav := false,
      Function := wrapExtensionFunction f,
      UrlPath := "/extension/action/" ++ e.Id ++ "/" ++ id, Cron := cron }

theorem findCommand_AddCommand (e : Extension) (id : String) (g : CommandFunction) :
    (e.AddCommand id g).findCommand (slugify id) =
      some { Id := slugify id, Function := g } :=
  find?_insertCommand e.commands { Id := slugify id, Function := g }

theorem manifestAction_AddCron (e : Extension) (id cron : String) (f : ExtensionFunction) :
    ((e.AddCron id cron f).describe).findAction (slugify id) =
      some { id := slugify id, index := -1, name := id, description := id, nav := false,
             cron := cron, cronSummary := "" } :=
  find?_insertAction_map e.actions
    { Id := slugify id, Index := -1, Name := id, Description := id, Nav := false,
      Function := wrapExtensionFunction f,
      UrlPath := "/extension/action/" ++ e.Id ++ "/" ++ id, Cron := cron }

/-! ## The claims -/

/-- C3 counterexample: the claim quantifies over every payload, but a
payload ending in a newline does not survive the round trip — the scanner
does not return the empty final line, so `"x\n"` decodes to `"x"`. -/
theorem C3_counterexample :
    decodedPayload (payloadStream "op".data "x\n".data) = "x".data ∧
    decodedPayload (payloadStream "op".data "x\n".data) ≠ "x\n".data := by
  exact ⟨by decide, by decide⟩

/-- C3 (amended): for every payload `P` that does not end with a newline,
none of whose lines ends with a carriage return, and all of whose lines —
like the operation id line — stay under the scanner's 64 KiB token limit,
`Execute`'s decode of the stream written by `Payload` succeeds (no scan
error) and reproduces exactly `P`.  As the claim states it — for every
payload, embedded newlines included — the round trip fails: the scanner
drops the empty final line produced by a trailing newline, strips a
carriage return at the end of a line (see the counterexample), and errors
out on a line of `MaxScanTokenSize` bytes or more. -/
theorem C3_payload_roundtrip (op P : List Char) (hop : '\n' ∉ op)
    (hlast : P.getLast? ≠ some '\n')
    (hcr : ∀ fld ∈ splitOnNl P, fld.getLast? ≠ some '\r')
    (hlen : scanOverflow (payloadStream op P) = false) :
    executeDecode (payloadStream op P) =
      .ok (decodedOperationId (payloadStream op P), P) := by
  rw [executeDecode, hlen]
  rw [decodedPayload_payloadStream op P hop hlast hcr]
  rfl

/-- C3 witness: the round trip at the operation id `op` and the concrete
payload `"a\nb"` with an embedded newline. -/
theorem C3_witness :
    executeDecode (payloadStream "op".data "a\nb".data) =
      .ok (decodedOperationId (payloadStream "op".data "a\nb".data), "a\nb".data) :=
  C3_payload_roundtrip "op".data "a\nb".data (by decide) (by decide) (by decide) (by decide)

/-- C1 counterexample: on a registry containing one `CronAction` with
expression `"0 * * * *"`, the manifest built by `describe` contains that
operation, but its `cronSummary` is the empty string — the Go struct
literal in `describe` never assigns `CronSummary`, so the claimed non-empty
human-readable summary does not exist. -/
theorem C1_counterexample :
    (cronOnlyExt.describe.findAction "tick").map (fun a => (a.cron, a.cronSummary)) =
      some ("0 * * * *", "") ∧
    ∀ a ∈ cronOnlyExt.describe.actions, a.cronSummary = "" := by
  exact ⟨rfl, by decide⟩

/-- C1 (amended): for every registry with a cron operation registered via
`AddCron`, the manifest returned by `describe` contains that operation in
its actions map with its `cron` field equal to the registered expression —
but `cronSummary` is always the empty string; no summary is ever computed,
well-formed or malformed. -/
theorem C1_cron_manifest_entry (e : Extension) (id cron : String) (f : ExtensionFunction) :
    ∃ ja, ((e.AddCron id cron f).describe).findAction (slugify id) = some ja ∧
      ja.cron = cron ∧ ja.cronSummary = "" := by
  exact ⟨_, manifestAction_AddCron e id cron f, rfl, rfl⟩

/-- C2 counterexample: registering a `CronAction` and then an `Action`
gives the action index 1, not 0 — `Index` is the current size of the
actions map, and the cron entry counts toward it, contradicting the claim
that cron registrations do not advance the derived index. -/
theorem C2_counterexample :
    (cronFirstExt.findAction "greet").map ExtensionAction.Index ≠ some 0 ∧
    (cronFirstExt.findAction "greet").map ExtensionAction.Index = some 1 := by
  exact ⟨by decide, rfl⟩

/-- C2 (amended): the derived index of an operation registered via
`AddAction` or `AddNavigation` equals the number of entries of the actions
map — operations of every kind, cron entries included — at registration
time, and every `AddCron` operation's index is the sentinel `-1`. -/
theorem C2_index_derivation (e : Extension) (id name desc cron : String)
    (f : ExtensionFunction) :
    (∃ a, (e.AddAction id f).findAction (slugify id) = some a ∧
      a.Index = (e.actions.length : Int)) ∧
    (∃ a, (e.AddNavigation id name desc f).findAction id = some a ∧
      a.Index = (e.actions.length : Int)) ∧
    (∃ a, (e.AddCron id cron f).findAction (slugify id) = some a ∧ a.Index = -1) := by
  exact ⟨⟨_, findAction_AddAction e id f, rfl⟩,
    ⟨_, findAction_AddNavigation e id name desc f, rfl⟩,
    ⟨_, findAction_AddCron e id cron f, rfl⟩⟩

/-- C4: dispatching the identifier `describe` always resolves to the
built-in manifest builder — on every registry, and in particular on one
where an operation whose id is `describe` has been registered, whose
handler is therefore never invoked (the outcome is `describeResult`, not
`actionResult`). -/
theorem C4_describe_reserved (e : Extension) (payload : String) (f : ExtensionFunction) :
    e.route "describe" payload = .describeResult e.describe ∧
    (e.AddAction "describe" f).route "describe" payload =
      .describeResult ((e.AddAction "describe" f).describe) := by
  exact ⟨rfl, rfl⟩

/-- C5 counterexample: on the assistant dispatcher cited by the claim
(src/framework.go lines 381-397), the identifier `image` is not `describe`
and matches no registered operation, yet dispatch returns the encoded
avatar as a success — the `case "image"` branch — not an unknown-operation
error, refuting the claim for that dispatcher. -/
theorem C5_counterexample :
    (("image" : String) ≠ "describe") ∧
    sampleAssistant.findAction "image" = none ∧
    sampleAssistant.route "image" "payload" = .imageResult sampleAssistant.avatarImage ∧
    ∀ msg, sampleAssistant.route "image" "payload" ≠ .unknownAction msg := by
  refine ⟨by decide, rfl, rfl, fun msg h => ?_⟩
  rw [show sampleAssistant.route "image" "payload"
      = .imageResult sampleAssistant.avatarImage from rfl] at h
  exact AssistantRouteResult.noConfusion h

/-- C5 (amended): an identifier that is not `describe` and matches no
registered operation dispatches to the unknown-operation error on the
extension dispatcher; on the assistant dispatcher the same holds except for
the additionally reserved identifier `image`, which returns the encoded
avatar image.  In every one of these cases the outcome is not
`actionResult` (or `commandResult`), so no registered handler is
invoked. -/
theorem C5_unknown_dispatch :
    (∀ (e : Extension) (id payload : String), id ≠ "describe" →
      e.findAction id = none → e.findCommand id = none →
      e.route id payload = .unknownOperation ("unknown operation: " ++ id)) ∧
    (∀ (a : Assistant) (name payload : String), name ≠ "describe" → name ≠ "image" →
      a.findAction name = none →
      a.route name payload = .unknownAction ("unknown action: " ++ name)) ∧
    (∀ (a : Assistant) (payload : String),
      a.route "image" payload = .imageResult a.avatarImage) := by
  refine ⟨fun e id payload hid hA hC => ?_, fun a name payload hd hi hA => ?_,
    fun a payload => rfl⟩
  · simp only [Extension.route, if_neg hid, hA, hC]
  · simp only [Assistant.route, if_neg hd, if_neg hi, hA]

/-- C5 witness: the unknown identifier `not-a-real-id` on an extension
registry with one action and one command, and on an assistant. -/
theorem C5_witness :
    greetExt.route "not-a-real-id" "payload" =
      .unknownOperation ("unknown operation: " ++ "not-a-real-id") ∧
    sampleAssistant.route "not-a-real-id" "payload" =
      .unknownAction ("unknown action: " ++ "not-a-real-id") :=
  ⟨C5_unknown_dispatch.1 greetExt "not-a-real-id" "payload" (by decide) rfl rfl,
   C5_unknown_dispatch.2.1 sampleAssistant "not-a-real-id" "payload" (by decide)
     (by decide) rfl⟩

/-- C6 counterexample: `AddNavigation` stores the caller-supplied id
verbatim — the registry holds the id `My Nav!`, which is not a fixed point
of `slugify` — so not every registration kind slug-normalizes its id. -/
theorem C6_counterexample :
    navExt.actions.map ExtensionAction.Id = ["My Nav!"] ∧
    slugify "My Nav!" = "my-nav" ∧ ("My Nav!" : String) ≠ "my-nav" := by
  exact ⟨rfl, by decide, by decide⟩

/-- C6 (amended): registrations via `AddAction`, `AddCron` and `AddCommand`
store `slugify id`, which is a fixed point of `slugify`; `AddNavigation`
stores the caller-supplied id verbatim, with no normalization. -/
theorem C6_stored_ids (e : Extension) (id name desc cron : String)
    (f : ExtensionFunction) (g : CommandFunction) :
    (∃ a, (e.AddAction id f).findAction (slugify id) = some a ∧
      a.Id = slugify id ∧ slugify a.Id = a.Id) ∧
    (∃ a, (e.AddCron id cron f).findAction (slugify id) = some a ∧
      a.Id = slugify id ∧ slugify a.Id = a.Id) ∧
    (∃ c, (e.AddCommand id g).findCommand (slugify id) = some c ∧
      c.Id = slugify id ∧ slugify c.Id = c.Id) ∧
    (∃ a, (e.AddNavigation id name desc f).findAction id = some a ∧ a.Id = id) := by
  exact ⟨⟨_, findAction_AddAction e id f, rfl, slugify_idem id⟩,
    ⟨_, findAction_AddCron e id cron f, rfl, slugify_idem id⟩,
    ⟨_, findCommand_AddCommand e id g, rfl, slugify_idem id⟩,
    ⟨_, findAction_AddNavigation e id name desc f, rfl⟩⟩

/-- C7: registering the same id twice leaves only the second handler
resolvable — lookup returns the second descriptor, and dispatch for that id
runs the second handler. -/
theorem C7_last_write_wins (e : Extension) (id : String) (f g : ExtensionFunction)
    (payload : String) :
    ∃ a, ((e.AddAction id f).AddAction id g).findAction (slugify id) = some a ∧
      a.Function = wrapExtensionFunction g ∧
      (slugify id ≠ "describe" →
        ((e.AddAction id f).AddAction id g).route (slugify id) payload =
          .actionResult (wrapExtensionFunction g payload)) := by
  refine ⟨_, findAction_AddAction (e.AddAction id f) id g, rfl, fun hne => ?_⟩
  exact route_action_found hne (findAction_AddAction (e.AddAction id f) id g) payload

/-- C7 witness: registering `dup` twice and dispatching it runs the second
handler, which fails with `second`. -/
theorem C7_witness : dupExt.route "dup" "p" = .actionResult (Except.error "second") := by
  obtain ⟨a, hfind, hfun, hroute⟩ :=
    C7_last_write_wins (Extension.new "test" "desc") "dup" sampleExtensionFn
      secondExtensionFn "p"
  exact hroute (by decide)

/-- C8: `slugify` is idempotent, and its output contains only lowercase
ASCII letters (codepoints 97-122), digits (48-57), and hyphens (45). -/
theorem C8_slugify_idempotent (s : String) :
    slugify (slugify s) = slugify s ∧
    ∀ c ∈ (slugify s).data,
      (97 ≤ c.toNat ∧ c.toNat ≤ 122) ∨ (48 ≤ c.toNat ∧ c.toNat ≤ 57) ∨ c.toNat = 45 := by
  exact ⟨slugify_idem s, fun c hc => mem_slugifyChars hc⟩

/-- C9: every `AddAction` call appends exactly one descriptor to the
assistant description's functions list, even under a duplicate name: after
two registrations, both descriptors appear in the manifest produced by
`describe`, while the actions map resolves the name to the second action
only and holds exactly one entry for it. -/
theorem C9_duplicate_action_manifest (asst : Assistant) (v1 v2 : AssistantAction) :
    ((asst.AddAction v1).AddAction v2).describe.functions =
      asst.describe.functions ++ [toAssistantFunction v1, toAssistantFunction v2] ∧
    (v1.Name = v2.Name →
      ((asst.AddAction v1).AddAction v2).findAction v2.Name = some v2 ∧
      ((asst.AddAction v1).AddAction v2).actions.countP (fun x => x.Name == v2.Name)
        = 1) := by
  refine ⟨?_, fun _hname => ⟨find?_insertAssistantAction _ _, countP_insertAssistantAction _ _⟩⟩
  show (asst.description.functions ++ [toAssistantFunction v1]) ++ [toAssistantFunction v2]
      = asst.description.functions ++ [toAssistantFunction v1, toAssistantFunction v2]
  rw [List.append_assoc]
  rfl

/-- C9 witness: two actions named `read-file` registered in sequence — the
manifest lists both descriptors, the registry resolves to the second. -/
theorem C9_witness :
    ((sampleAssistant.AddAction readFileAction).AddAction readFileActionSecond).describe.functions
      = [toAssistantFunction readFileAction, toAssistantFunction readFileActionSecond] ∧
    ((sampleAssistant.AddAction readFileAction).AddAction readFileActionSecond).findAction
      "read-file" = some readFileActionSecond := by
  obtain ⟨h1, h2⟩ :=
    C9_duplicate_action_manifest sampleAssistant readFileAction readFileActionSecond
  exact ⟨h1, (h2 rfl).1⟩

/-- C10: on the empty input stream, `Execute`'s pipeline reports no decode
error — it routes the empty operation id with the empty payload — and, when
no operation is registered under the empty id, returns the
unknown-operation error without invoking any handler. -/
theorem C10_empty_stream (e : Extension) :
    e.executeCore "" = e.route "" "" ∧
    (e.findAction "" = none → e.findCommand "" = none →
      e.executeCore "" = .unknownOperation "unknown operation: ") := by
  refine ⟨rfl, fun hA hC => ?_⟩
  show e.route "" "" = .unknownOperation "unknown operation: "
  simp only [Extension.route, if_neg (by decide : ¬(("" : String) = "describe")), hA, hC]
  rfl

/-- C10 witness: the empty stream on a registry with one action and one
command. -/
theorem C10_witness : greetExt.executeCore "" = .unknownOperation "unknown operation: " :=
  (C10_empty_stream greetExt).2 rfl rfl
